import Mathlib

/-!
Shallow embedding of the energy telemetry ingestion engine.

The source (NestJS + PostgreSQL) maintains, per device class (vehicle /
meter), an append-only history table and a "current status" table keyed by
the device identifier.  The two repositories
(`vehicle-telemetry.repository.ts`, `meter-telemetry.repository.ts`)
duplicate the same logic and differ only in the value columns, so the
embedding is generic in the record of value fields (`VehicleValues`,
`MeterValues`).

Modelling conventions:
* timestamps (`recorded_at`, `last_seen_at`) are integer instants (`Int`);
  the repositories apply `new Date(timestamp)` to an ISO-8601 string, which
  is an order-preserving injection into instants;
* `numeric(p, s)` columns are rationals (`Rat`); no binary floating point
  is involved on the write path;
* the current table, keyed by its primary key, is a map
  `String → Option (CurrentRow V)`;
* the `updated_at = NOW()` server column is omitted: no claim refers to it;
* the multi-row `INSERT ... ON CONFLICT (id) DO UPDATE ... WHERE
  existing.last_seen_at < EXCLUDED.last_seen_at` applies the staleness
  guard row by row in VALUES order; `applyBatch` is the committed effect
  of a successful command, while `upsertCommand` additionally models
  PostgreSQL's cardinality-violation error `ON CONFLICT DO UPDATE command
  cannot affect row a second time`, raised when a proposed row conflicts
  with a row already inserted or updated by the same command (so a batch
  with several records for one fresh device aborts instead of
  committing);
* the database transaction is all-or-nothing: `ingestBatch` takes a
  failure oracle `fail`; on failure the returned state is the input state
  (rollback) and the error is re-raised (`some ()` in the second
  component).
-/

namespace EnergyIngestion

/-- Value columns of one vehicle reading (`soc`, `kwh_delivered_dc`,
`battery_temp` in `vehicle_telemetry_history` / `vehicle_current_status`). -/
structure VehicleValues where
  soc : Rat
  kwhDeliveredDc : Rat
  batteryTemp : Rat
  deriving DecidableEq, Repr

/-- Value columns of one meter reading (`kwh_consumed_ac`, `voltage` in
`meter_telemetry_history` / `meter_current_status`). -/
structure MeterValues where
  kwhConsumedAc : Rat
  voltage : Rat
  deriving DecidableEq, Repr

/-- One telemetry reading: device identifier (`vehicle_id` / `meter_id`),
class-specific value columns, and the device-reported instant
(`recorded_at`). -/
structure Reading (V : Type) where
  deviceId : String
  values : V
  recordedAt : Int
  deriving DecidableEq, Repr

/-- One row of a current-status table: device identifier (primary key),
value columns, and `last_seen_at` (the winning `recorded_at`). -/
structure CurrentRow (V : Type) where
  deviceId : String
  values : V
  lastSeenAt : Int
  deriving DecidableEq, Repr

/-- The current-status row a fresh reading inserts (`last_seen_at :=
recorded_at`). -/
def rowOfReading {V : Type} (r : Reading V) : CurrentRow V :=
  ⟨r.deviceId, r.values, r.recordedAt⟩

/-- Per-class database state: the append-only history table and the
current-status table (a map keyed by the device identifier). -/
structure Db (V : Type) where
  history : List (Reading V)
  current : String → Option (CurrentRow V)

/-- Both tables empty. -/
def Db.empty {V : Type} : Db V :=
  ⟨[], fun _ => none⟩

/-- One row of the multi-row upsert against the current table:
`INSERT ... ON CONFLICT (device_id) DO UPDATE SET ... WHERE
existing.last_seen_at < EXCLUDED.last_seen_at`.  If the key is absent the
row is inserted; on conflict the existing row is replaced only when the
staleness guard `existing.last_seen_at < incoming.recorded_at` passes. -/
def upsertOne {V : Type} (cur : String → Option (CurrentRow V)) (r : Reading V) :
    String → Option (CurrentRow V) := fun d =>
  if d = r.deviceId then
    match cur r.deviceId with
    | none => some (rowOfReading r)
    | some row => some (if row.lastSeenAt < r.recordedAt then rowOfReading r else row)
  else cur d

/-- The committed effect of one successful `ingestBatch` transaction:
the multi-row insert appends every record to the history table, and the
multi-row upsert resolves the batch against the current table row by row
in VALUES order. -/
def applyBatch {V : Type} (db : Db V) (records : List (Reading V)) : Db V :=
  { history := db.history ++ records
    current := records.foldl upsertOne db.current }

/-- `ingestBatch(records)` from the repositories.  An empty batch returns
immediately, before any transaction is started (so the failure oracle is
irrelevant there).  Otherwise the transaction either commits both writes
(`fail = false`) or is rolled back leaving the state unchanged and the
error is re-raised (`fail = true`; second component `some ()` is the
re-raised error). -/
def ingestBatch {V : Type} (fail : Bool) (db : Db V) (records : List (Reading V)) :
    Db V × Option Unit :=
  if records.isEmpty then (db, none)
  else if fail then (db, some ())
  else (applyBatch db records, none)

/-- One multi-row `INSERT ... ON CONFLICT (device_id) DO UPDATE ... WHERE
existing.last_seen_at < EXCLUDED.last_seen_at` command against the current
table, with PostgreSQL's cardinality semantics.  Rows are processed in
VALUES order while `affected` tracks the keys whose current row this
command has already inserted or updated.  A row whose key is absent is
inserted; a row conflicting with an existing row updates it only when the
staleness guard passes (a guard that fails leaves the row unaffected); and
a row conflicting with a row already affected by this same command raises
the cardinality violation `ON CONFLICT DO UPDATE command cannot affect row
a second time` (`none`), which aborts the whole command. -/
def upsertCommand {V : Type} :
    List (Reading V) → (String → Option (CurrentRow V)) → List String →
      Option (String → Option (CurrentRow V))
  | [], cur, _ => some cur
  | r :: rs, cur, affected =>
      if r.deviceId ∈ affected then none
      else
        match cur r.deviceId with
        | none => upsertCommand rs (upsertOne cur r) (r.deviceId :: affected)
        | some row =>
            if row.lastSeenAt < r.recordedAt then
              upsertCommand rs (upsertOne cur r) (r.deviceId :: affected)
            else
              upsertCommand rs cur affected

/-- `ingestBatch(records)` with the current-table upsert given
PostgreSQL's cardinality-violation semantics: an empty batch returns
before any transaction; when the upsert command raises (a key affected
twice in one command) the transaction is rolled back — both tables
unchanged — and the error is re-raised (`some ()`); otherwise both writes
commit. -/
def ingestBatchPg {V : Type} (db : Db V) (records : List (Reading V)) :
    Db V × Option Unit :=
  if records.isEmpty then (db, none)
  else
    match upsertCommand records db.current [] with
    | some cur => ({ history := db.history ++ records, current := cur }, none)
    | none => (db, some ())

abbrev VehicleReading := Reading VehicleValues
abbrev MeterReading := Reading MeterValues
abbrev VehicleDb := Db VehicleValues
abbrev MeterDb := Db MeterValues

/-- The committed effect of a single record: one history append and one
conflict-resolved upsert. -/
def ingestOne {V : Type} (db : Db V) (r : Reading V) : Db V :=
  ⟨db.history ++ [r], upsertOne db.current r⟩

/-- The hot/cold consistency invariant: for every device identifier
present in the current table, `last_seen_at` equals the maximum
`recorded_at` over the persisted history readings of that device, and the
value columns are those of a history reading carrying that timestamp.
The first conjunct records that every device appearing in history has a
current row (the first reading inserts it). -/
def HistoryConsistent {V : Type} (db : Db V) : Prop :=
  (∀ r ∈ db.history, ∃ row, db.current r.deviceId = some row) ∧
  (∀ d row, db.current d = some row →
    row.deviceId = d ∧
    (∃ r ∈ db.history, r.deviceId = d ∧ r.recordedAt = row.lastSeenAt ∧
      r.values = row.values) ∧
    (∀ r ∈ db.history, r.deviceId = d → r.recordedAt ≤ row.lastSeenAt))

/-! ### Ingestion buffer (`ingestion-buffer.service.ts`)

The per-class buffer is a list of pending records; `bufferDepth` is its
length (`getBufferDepth`).  `flushClass` models `flushVehicles` /
`flushMeters`: an empty buffer returns before any database work; otherwise
the buffer is swapped for an empty one, the detached batch is handed to
`ingestBatch`, and on failure the batch is re-prepended in front of the
records pushed while the flush was in flight (`batch.concat(buffer)`).
The records arriving during the asynchronous repository call are passed
explicitly as `pushed`. -/

def bufferDepth {V : Type} (buffer : List (Reading V)) : Nat :=
  buffer.length

def flushClass {V : Type} (fail : Bool) (buf pushed : List (Reading V)) (db : Db V) :
    List (Reading V) × Db V :=
  if buf.isEmpty then (pushed, db)
  else
    match ingestBatch fail db buf with
    | (db', none) => (pushed, db')
    | (db', some _) => (buf ++ pushed, db')

/-- Per-class state observed by the buffer service: the pending buffer,
the database state behind the repository, and how many size-triggered
flushes have been scheduled. -/
structure ClassState (V : Type) where
  buffer : List (Reading V)
  db : Db V
  flushCount : Nat

/-- `pushVehicle` / `pushMeter`: append the record; when the buffer has
reached `FLUSH_SIZE`, schedule a flush of the class (modelled with a
successful repository call and no concurrent pushes, as in the sequential
size-trigger scenario). -/
def pushRecord {V : Type} (flushSize : Nat) (st : ClassState V) (r : Reading V) :
    ClassState V :=
  let buf1 := st.buffer ++ [r]
  if flushSize ≤ buf1.length then
    let res := flushClass false buf1 [] st.db
    { buffer := res.1, db := res.2, flushCount := st.flushCount + 1 }
  else
    { st with buffer := buf1 }

/-! ### Validation and dispatch (`ingest-telemetry.dto.ts`, `telemetry.service.ts`)

`plainToInstance` followed by `validate` is modelled on a raw payload in
which every field is `some v` when the incoming JSON carries a value of
the declared type and `none` otherwise (missing field or wrong runtime
type; `@IsString` / `@IsNumber` / `@IsDateString` reject those).  The
`@IsDateString` check delegates to the validation library's ISO-8601
predicate, which is external code; it is passed in as `isIsoDate`. -/

structure RawVehiclePayload where
  vehicleId : Option String
  soc : Option Rat
  kwhDeliveredDc : Option Rat
  batteryTemp : Option Rat
  timestamp : Option String
  deriving DecidableEq, Repr

/-- A validated `VehiclePayloadDto` as pushed to the vehicle buffer. -/
structure VehiclePayload where
  vehicleId : String
  soc : Rat
  kwhDeliveredDc : Rat
  batteryTemp : Rat
  timestamp : String
  deriving DecidableEq, Repr

/-- Field-level constraint messages produced by `validate(vehicleDto)` for
`VehiclePayloadDto`: `@IsString @IsNotEmpty` on `vehicleId`, `@IsNumber
@Min(0) @Max(100)` on `soc`, `@IsNumber @Min(0)` on `kwhDeliveredDc`,
`@IsNumber` on `batteryTemp`, `@IsDateString` on `timestamp`.  Note that
the DTO declares no maximum length for `vehicleId`. -/
def vehicleValidationErrors (isIsoDate : String → Bool) (p : RawVehiclePayload) :
    List String :=
  (match p.vehicleId with
   | none => ["vehicleId must be a string"]
   | some s => if s = "" then ["vehicleId should not be empty"] else []) ++
  (match p.soc with
   | none => ["soc must be a number"]
   | some q =>
       (if q < 0 then ["soc must not be less than 0"] else []) ++
       (if 100 < q then ["soc must not be greater than 100"] else [])) ++
  (match p.kwhDeliveredDc with
   | none => ["kwhDeliveredDc must be a number"]
   | some q => if q < 0 then ["kwhDeliveredDc must not be less than 0"] else []) ++
  (match p.batteryTemp with
   | none => ["batteryTemp must be a number"]
   | some _ => []) ++
  (match p.timestamp with
   | none => ["timestamp must be a valid ISO 8601 date string"]
   | some t => if isIsoDate t then []
               else ["timestamp must be a valid ISO 8601 date string"])

/-- `TelemetryService.ingestVehicle`: validate, throw the 400
`BadRequestException` with the collected messages (first component
`Except.error`) leaving the buffer untouched, or push the validated DTO
onto the vehicle buffer.  The `getD` defaults are never used: when the
error list is empty every field is present. -/
def ingestVehicle (isIsoDate : String → Bool) (p : RawVehiclePayload)
    (buffer : List VehiclePayload) : Except (List String) Unit × List VehiclePayload :=
  match vehicleValidationErrors isIsoDate p with
  | [] => (.ok (), buffer ++
      [⟨p.vehicleId.getD "", p.soc.getD 0, p.kwhDeliveredDc.getD 0,
        p.batteryTemp.getD 0, p.timestamp.getD ""⟩])
  | errs => (.error errs, buffer)

/-! ### Analytics read API (`analytics.service.ts`)

Device classes reach the service as runtime strings (route parameters are
not coerced), so `deviceType` is a `String`; its valid values are the
`DeviceType` enum members `"VEHICLE"` and `"METER"`.  Timestamps are
integer instants in seconds, so `NOW() - INTERVAL '24 hours'` is
`now - 86400`. -/

/-- One row of `vehicle_meter_link`: `vehicle_id` (unique), `meter_id`. -/
structure LinkRow where
  vehicleId : String
  meterId : String
  deriving DecidableEq, Repr

/-- Read-side database state: both history tables, the link table and both
current-status tables. -/
structure AnalyticsDb where
  vehicleHistory : List VehicleReading
  meterHistory : List MeterReading
  vehicleMeterLink : List LinkRow
  vehicleCurrent : String → Option (CurrentRow VehicleValues)
  meterCurrent : String → Option (CurrentRow MeterValues)

/-- `SELECT meter_id FROM vehicle_meter_link WHERE vehicle_id = $1`. -/
def lookupLink (links : List LinkRow) (vid : String) : Option String :=
  match links.find? (fun l => l.vehicleId == vid) with
  | some l => some l.meterId
  | none => none

/-- PostgreSQL `ROUND(numeric, 2)`: round half away from zero to two
fractional digits. -/
def pgRound2 (q : Rat) : Rat :=
  if 0 ≤ q then ((⌊q * 100 + 1 / 2⌋ : Int) : Rat) / 100
  else -(((⌊-q * 100 + 1 / 2⌋ : Int) : Rat) / 100)

/-- Result object of `getVehiclePerformance` (the `parseFloat` calls are
identities on the numeric model; `averageBatteryTemp` is `none` when the
SQL `AVG` over zero rows is NULL). -/
structure VehiclePerformance where
  vehicleId : String
  meterId : String
  totalAcConsumed : Rat
  totalDcDelivered : Rat
  efficiencyRatio : Rat
  averageBatteryTemp : Option Rat
  deriving DecidableEq, Repr

/-- `AnalyticsService.getVehiclePerformance`: resolve the link (404 when
absent, issuing no aggregation), then one combined aggregation query over
both history tables restricted to the last 24 hours, computing
`CASE WHEN total_ac_consumed > 0 THEN
ROUND(total_dc_delivered / total_ac_consumed * 100, 2) ELSE 0 END`.
The second component counts the aggregation queries issued against the
history tables. -/
def getVehiclePerformance (now : Int) (adb : AnalyticsDb) (vehicleId : String) :
    Except Unit VehiclePerformance × Nat :=
  match lookupLink adb.vehicleMeterLink vehicleId with
  | none => (.error (), 0)
  | some meterId =>
      let vrows := adb.vehicleHistory.filter
        (fun r => r.deviceId == vehicleId && decide (now - 86400 ≤ r.recordedAt))
      let mrows := adb.meterHistory.filter
        (fun r => r.deviceId == meterId && decide (now - 86400 ≤ r.recordedAt))
      let totalDcDelivered := (vrows.map (fun r => r.values.kwhDeliveredDc)).sum
      let totalAcConsumed := (mrows.map (fun r => r.values.kwhConsumedAc)).sum
      let efficiencyRatio :=
        if 0 < totalAcConsumed then pgRound2 (totalDcDelivered / totalAcConsumed * 100)
        else 0
      let averageBatteryTemp :=
        if vrows.length = 0 then none
        else some (pgRound2
          ((vrows.map (fun r => r.values.batteryTemp)).sum / (vrows.length : Rat)))
      (.ok ⟨vehicleId, meterId, totalAcConsumed, totalDcDelivered, efficiencyRatio,
        averageBatteryTemp⟩, 1)

/-- Result of `getLiveStatus`: `rows[0] ?? null` from the queried current
table. -/
inductive LiveStatusResult where
  | vehicleRow (row : CurrentRow VehicleValues)
  | meterRow (row : CurrentRow MeterValues)
  | null
  deriving DecidableEq, Repr

/-- `AnalyticsService.getLiveStatus`: `if deviceType === VEHICLE` query
the vehicle current table, otherwise (any other string) query the meter
current table; return the row or null, never a validation error. -/
def getLiveStatus (adb : AnalyticsDb) (deviceType deviceId : String) :
    LiveStatusResult :=
  if deviceType = "VEHICLE" then
    match adb.vehicleCurrent deviceId with
    | some row => .vehicleRow row
    | none => .null
  else
    match adb.meterCurrent deviceId with
    | some row => .meterRow row
    | none => .null

inductive HistoryRows where
  | vehicleRows (rows : List VehicleReading)
  | meterRows (rows : List MeterReading)
  deriving DecidableEq, Repr

/-- `AnalyticsService.getDeviceHistory`: device equality, `recorded_at` in
`[from, to)`, `ORDER BY recorded_at DESC`, `LIMIT`; an unknown device type
throws `BadRequestException` (the error case). -/
def getDeviceHistory (adb : AnalyticsDb) (deviceType deviceId : String)
    (fromAt toAt : Int) (limit : Nat) : Except Unit HistoryRows :=
  if deviceType = "VEHICLE" then
    .ok (.vehicleRows (((adb.vehicleHistory.filter
      (fun r => r.deviceId == deviceId && decide (fromAt ≤ r.recordedAt) &&
        decide (r.recordedAt < toAt))).insertionSort
      (fun a b => b.recordedAt ≤ a.recordedAt)).take limit))
  else if deviceType = "METER" then
    .ok (.meterRows (((adb.meterHistory.filter
      (fun r => r.deviceId == deviceId && decide (fromAt ≤ r.recordedAt) &&
        decide (r.recordedAt < toAt))).insertionSort
      (fun a b => b.recordedAt ≤ a.recordedAt)).take limit))
  else
    .error ()

/-! ### Sample data (used by concrete witness instances) -/

def vr1 : VehicleReading := ⟨"V001", ⟨72, 3, 31⟩, 1000⟩
def vr2 : VehicleReading := ⟨"V001", ⟨80, 4, 30⟩, 2000⟩
def vrOld : VehicleReading := ⟨"V001", ⟨10, 1, 20⟩, 500⟩
def mr1 : MeterReading := ⟨"M042", ⟨2, 230⟩, 1000⟩

def adbSample : AnalyticsDb :=
  ⟨[vr1], [mr1], [⟨"V001", "M042"⟩], fun _ => none, fun _ => none⟩

/-- Concrete stand-in for the validation library's ISO-8601 predicate. -/
def isoReference : String → Bool := fun s => s == "2026-02-12T10:30:00Z"

/-- A raw VEHICLE payload whose identifier is 65 characters long and whose
remaining fields satisfy every declared constraint. -/
def longIdVehiclePayload : RawVehiclePayload :=
  ⟨some (String.mk (List.replicate 65 'V')), some 50, some 3, some 25,
    some "2026-02-12T10:30:00Z"⟩

/-! ### Basic lemmas about the upsert -/

theorem upsertOne_ne {V : Type} (cur : String → Option (CurrentRow V))
    (r : Reading V) (d : String) (h : d ≠ r.deviceId) :
    upsertOne cur r d = cur d := by
  simp [upsertOne, h]

theorem upsertOne_eq {V : Type} (cur : String → Option (CurrentRow V)) (r : Reading V) :
    upsertOne cur r r.deviceId =
      match cur r.deviceId with
      | none => some (rowOfReading r)
      | some row =>
          some (if row.lastSeenAt < r.recordedAt then rowOfReading r else row) := by
  simp [upsertOne]

/-- The value of the fold of upserts at a key depends only on the initial
value at that key. -/
theorem foldl_upsertOne_congr {V : Type} (d : String) :
    ∀ (rs : List (Reading V)) (cur₁ cur₂ : String → Option (CurrentRow V)),
      cur₁ d = cur₂ d →
      (rs.foldl upsertOne cur₁) d = (rs.foldl upsertOne cur₂) d := by
  intro rs
  induction rs with
  | nil => intro cur₁ cur₂ h; simpa using h
  | cons r rs ih =>
      intro cur₁ cur₂ h
      apply ih
      by_cases hd : d = r.deviceId
      · subst hd
        simp only [upsertOne, if_pos rfl, h]
      · rw [upsertOne_ne _ _ _ hd, upsertOne_ne _ _ _ hd, h]

/-- When the multi-row upsert command succeeds (no key is affected twice),
its result agrees pointwise with the guard-respecting fold used in
`applyBatch`: the cardinality-violation error is the only divergence
between the two models. -/
theorem upsertCommand_ok_agrees_foldl {V : Type} :
    ∀ (rs : List (Reading V)) (cur : String → Option (CurrentRow V))
      (affected : List String) (cur' : String → Option (CurrentRow V)),
      upsertCommand rs cur affected = some cur' →
      ∀ d, cur' d = (rs.foldl upsertOne cur) d := by
  intro rs
  induction rs with
  | nil =>
      intro cur affected cur' h d
      simp only [upsertCommand, Option.some.injEq] at h
      rw [← h, List.foldl_nil]
  | cons r rs ih =>
      intro cur affected cur' h d
      simp only [upsertCommand] at h
      by_cases hmem : r.deviceId ∈ affected
      · rw [if_pos hmem] at h
        cases h
      · rw [if_neg hmem] at h
        rw [List.foldl_cons]
        cases hcur : cur r.deviceId with
        | none =>
            simp only [hcur] at h
            exact ih _ _ _ h d
        | some row =>
            simp only [hcur] at h
            by_cases hlt : row.lastSeenAt < r.recordedAt
            · rw [if_pos hlt] at h
              exact ih _ _ _ h d
            · rw [if_neg hlt] at h
              have hpt : cur d = (upsertOne cur r) d := by
                by_cases hx : d = r.deviceId
                · subst hx
                  simp [upsertOne, hcur, hlt]
                · rw [upsertOne_ne _ _ _ hx]
              rw [ih _ _ _ h d]
              exact foldl_upsertOne_congr d rs cur (upsertOne cur r) hpt

/-! ### The committed effect, one record at a time -/

theorem applyBatch_nil {V : Type} (db : Db V) : applyBatch db [] = db := by
  simp [applyBatch]

theorem applyBatch_cons {V : Type} (db : Db V) (r : Reading V) (rs : List (Reading V)) :
    applyBatch db (r :: rs) = applyBatch (ingestOne db r) rs := by
  simp [applyBatch, ingestOne]

theorem upsertOne_self_some {V : Type} (cur : String → Option (CurrentRow V))
    (r : Reading V) :
    ∃ row, upsertOne cur r r.deviceId = some row ∧ r.recordedAt ≤ row.lastSeenAt := by
  cases hc : cur r.deviceId with
  | none => exact ⟨rowOfReading r, by simp [upsertOne, hc], le_refl _⟩
  | some row₀ =>
      by_cases hlt : row₀.lastSeenAt < r.recordedAt
      · exact ⟨rowOfReading r, by simp [upsertOne, hc, hlt], le_refl _⟩
      · exact ⟨row₀, by simp [upsertOne, hc, hlt], le_of_not_lt hlt⟩

theorem historyConsistent_empty {V : Type} : HistoryConsistent (Db.empty : Db V) := by
  refine ⟨?_, ?_⟩ <;> simp [Db.empty]

theorem historyConsistent_ingestOne {V : Type} (db : Db V) (r : Reading V)
    (h : HistoryConsistent db) : HistoryConsistent (ingestOne db r) := by
  obtain ⟨h1, h2⟩ := h
  constructor
  · intro r' hr'
    by_cases hd : r'.deviceId = r.deviceId
    · rw [ingestOne, hd]
      obtain ⟨row, hrow, -⟩ := upsertOne_self_some db.current r
      exact ⟨row, hrow⟩
    · rcases List.mem_append.mp hr' with hmem | hmem
      · obtain ⟨row, hrow⟩ := h1 r' hmem
        refine ⟨row, ?_⟩
        show upsertOne db.current r r'.deviceId = some row
        rw [upsertOne_ne _ _ _ hd]
        exact hrow
      · exact absurd (List.mem_singleton.mp hmem ▸ rfl) hd
  · intro d row hrow
    by_cases hd : d = r.deviceId
    · subst hd
      rw [ingestOne] at hrow
      simp only [upsertOne, if_pos rfl] at hrow
      cases hc : db.current r.deviceId with
      | none =>
          rw [hc] at hrow
          obtain rfl : rowOfReading r = row := by
            simpa using hrow
          refine ⟨rfl, ⟨r, by simp [ingestOne], rfl, rfl, rfl⟩, ?_⟩
          intro r' hr' hdev
          rcases List.mem_append.mp hr' with hmem | hmem
          · obtain ⟨row₀, hrow₀⟩ := h1 r' hmem
            rw [hdev] at hrow₀
            rw [hc] at hrow₀
            cases hrow₀
          · rw [List.mem_singleton.mp hmem]
            exact le_refl _
      | some row₀ =>
          rw [hc] at hrow
          obtain ⟨hid₀, ⟨r₀, hr₀mem, hr₀dev, hr₀at, hr₀val⟩, hub₀⟩ :=
            h2 r.deviceId row₀ hc
          by_cases hlt : row₀.lastSeenAt < r.recordedAt
          · obtain rfl : rowOfReading r = row := by
              simpa [hlt] using hrow
            refine ⟨rfl, ⟨r, by simp [ingestOne], rfl, rfl, rfl⟩, ?_⟩
            intro r' hr' hdev
            rcases List.mem_append.mp hr' with hmem | hmem
            · exact le_of_lt (lt_of_le_of_lt (hub₀ r' hmem hdev) hlt)
            · rw [List.mem_singleton.mp hmem]
              exact le_refl _
          · obtain rfl : row₀ = row := by
              simpa [hlt] using hrow
            refine ⟨hid₀, ⟨r₀, by simp [ingestOne, hr₀mem], hr₀dev, hr₀at, hr₀val⟩, ?_⟩
            intro r' hr' hdev
            rcases List.mem_append.mp hr' with hmem | hmem
            · exact hub₀ r' hmem hdev
            · rw [List.mem_singleton.mp hmem]
              exact le_of_not_lt hlt
    · simp only [ingestOne] at hrow
      rw [upsertOne_ne _ _ _ hd] at hrow
      obtain ⟨hid, ⟨r₀, hr₀mem, hr₀dev, hr₀at, hr₀val⟩, hub⟩ := h2 d row hrow
      refine ⟨hid, ⟨r₀, by simp [ingestOne, hr₀mem], hr₀dev, hr₀at, hr₀val⟩, ?_⟩
      intro r' hr' hdev
      rcases List.mem_append.mp hr' with hmem | hmem
      · exact hub r' hmem hdev
      · exact absurd (List.mem_singleton.mp hmem ▸ hdev) (fun h => hd h.symm)

theorem historyConsistent_applyBatch {V : Type} (db : Db V)
    (records : List (Reading V)) (h : HistoryConsistent db) :
    HistoryConsistent (applyBatch db records) := by
  induction records generalizing db with
  | nil => rw [applyBatch_nil]; exact h
  | cons r rs ih =>
      rw [applyBatch_cons]
      exact ih _ (historyConsistent_ingestOne db r h)

/-! ### Monotonicity and visibility of the upsert fold -/

theorem upsertOne_mono {V : Type} (cur : String → Option (CurrentRow V))
    (r : Reading V) (d : String) (row : CurrentRow V) (h : cur d = some row) :
    ∃ row', upsertOne cur r d = some row' ∧ row.lastSeenAt ≤ row'.lastSeenAt := by
  by_cases hd : d = r.deviceId
  · subst hd
    by_cases hlt : row.lastSeenAt < r.recordedAt
    · exact ⟨rowOfReading r, by simp [upsertOne, h, hlt], le_of_lt hlt⟩
    · exact ⟨row, by simp [upsertOne, h, hlt], le_refl _⟩
  · exact ⟨row, by rw [upsertOne_ne _ _ _ hd]; exact h, le_refl _⟩

theorem foldl_upsertOne_mono {V : Type} (d : String) :
    ∀ (rs : List (Reading V)) (cur : String → Option (CurrentRow V))
      (row : CurrentRow V), cur d = some row →
      ∃ row', (rs.foldl upsertOne cur) d = some row' ∧
        row.lastSeenAt ≤ row'.lastSeenAt := by
  intro rs
  induction rs with
  | nil => intro cur row h; exact ⟨row, h, le_refl _⟩
  | cons r rs ih =>
      intro cur row h
      obtain ⟨row₁, hrow₁, hle₁⟩ := upsertOne_mono cur r d row h
      obtain ⟨row₂, hrow₂, hle₂⟩ := ih (upsertOne cur r) row₁ hrow₁
      exact ⟨row₂, hrow₂, le_trans hle₁ hle₂⟩

/-- Every record of a committed batch is visible in both tables: it is a
row of the history table, and the current table holds a row for its
device whose `last_seen_at` is at least its `recorded_at`. -/
theorem applyBatch_visible {V : Type} (db : Db V) (records : List (Reading V))
    (r : Reading V) (hr : r ∈ records) :
    r ∈ (applyBatch db records).history ∧
    ∃ row, (applyBatch db records).current r.deviceId = some row ∧
      r.recordedAt ≤ row.lastSeenAt := by
  constructor
  · exact List.mem_append.mpr (Or.inr hr)
  · obtain ⟨s, t, rfl⟩ := List.append_of_mem hr
    show ∃ row, ((s ++ r :: t).foldl upsertOne db.current) r.deviceId = some row ∧ _
    rw [List.foldl_append, List.foldl_cons]
    obtain ⟨row₁, hrow₁, hle₁⟩ := upsertOne_self_some (s.foldl upsertOne db.current) r
    obtain ⟨row₂, hrow₂, hle₂⟩ := foldl_upsertOne_mono r.deviceId t _ row₁ hrow₁
    exact ⟨row₂, hrow₂, le_trans hle₁ hle₂⟩

/-! ### Within-batch cardinality violation (claim C3)

A second record for a key whose current row this command has already
affected aborts the whole upsert command. -/

theorem upsertCommand_error_of_affected {V : Type} (d : String) :
    ∀ (rs : List (Reading V)) (cur : String → Option (CurrentRow V))
      (affected : List String), d ∈ affected →
      1 ≤ (rs.filter fun r => r.deviceId = d).length →
      upsertCommand rs cur affected = none := by
  intro rs
  induction rs with
  | nil =>
      intro cur affected hmem hlen
      simp at hlen
  | cons r rs ih =>
      intro cur affected hmem hlen
      by_cases hd : r.deviceId = d
      · simp only [upsertCommand, if_pos (hd ▸ hmem)]
      · have hlen2 : 1 ≤ (rs.filter fun r => r.deviceId = d).length := by
          rw [List.filter_cons] at hlen
          simpa [hd] using hlen
        by_cases hmem2 : r.deviceId ∈ affected
        · simp only [upsertCommand, if_pos hmem2]
        · simp only [upsertCommand, if_neg hmem2]
          cases hcur : cur r.deviceId with
          | none =>
              exact ih _ _ (List.mem_cons_of_mem _ hmem) hlen2
          | some row =>
              dsimp only
              by_cases hlt : row.lastSeenAt < r.recordedAt
              · rw [if_pos hlt]
                exact ih _ _ (List.mem_cons_of_mem _ hmem) hlen2
              · rw [if_neg hlt]
                exact ih _ _ hmem hlen2

theorem upsertCommand_error_of_fresh_dup {V : Type} (d : String) :
    ∀ (rs : List (Reading V)) (cur : String → Option (CurrentRow V))
      (affected : List String), cur d = none → d ∉ affected →
      2 ≤ (rs.filter fun r => r.deviceId = d).length →
      upsertCommand rs cur affected = none := by
  intro rs
  induction rs with
  | nil =>
      intro cur affected hcur hmem hlen
      simp at hlen
  | cons r rs ih =>
      intro cur affected hcur hmem hlen
      by_cases hd : r.deviceId = d
      · have hmem2 : r.deviceId ∉ affected := by
          rw [hd]
          exact hmem
        have hlen2 : 1 ≤ (rs.filter fun r => r.deviceId = d).length := by
          rw [List.filter_cons] at hlen
          simp only [hd, decide_True, if_pos, List.length_cons] at hlen
          omega
        simp only [upsertCommand, hd, hcur]
        rw [if_neg hmem]
        exact upsertCommand_error_of_affected d rs _ _ (List.mem_cons_self d affected)
          hlen2
      · have hlen2 : 2 ≤ (rs.filter fun r => r.deviceId = d).length := by
          rw [List.filter_cons] at hlen
          simpa [hd] using hlen
        by_cases hmem2 : r.deviceId ∈ affected
        · simp only [upsertCommand, if_pos hmem2]
        · simp only [upsertCommand, if_neg hmem2]
          have hcur2 : (upsertOne cur r) d = none := by
            rw [upsertOne_ne _ _ _ (fun h => hd h.symm)]
            exact hcur
          have hmem3 : d ∉ r.deviceId :: affected := by
            intro h
            rcases List.mem_cons.mp h with h | h
            · exact hd h.symm
            · exact hmem h
          cases hcurv : cur r.deviceId with
          | none =>
              exact ih _ _ hcur2 hmem3 hlen2
          | some row =>
              dsimp only
              by_cases hlt : row.lastSeenAt < r.recordedAt
              · rw [if_pos hlt]
                exact ih _ _ hcur2 hmem3 hlen2
              · rw [if_neg hlt]
                exact ih _ _ hcur hmem hlen2

theorem flushClass_empty {V : Type} (fail : Bool) (pushed : List (Reading V))
    (db : Db V) : flushClass fail ([] : List (Reading V)) pushed db = (pushed, db) := by
  simp [flushClass]

theorem ingestBatch_ok {V : Type} (db : Db V) (records : List (Reading V))
    (hne : records ≠ []) :
    ingestBatch false db records = (applyBatch db records, none) := by
  simp [ingestBatch, hne]

theorem ingestBatch_fail {V : Type} (db : Db V) (records : List (Reading V))
    (hne : records ≠ []) :
    ingestBatch true db records = (db, some ()) := by
  simp [ingestBatch, hne]

theorem flushClass_ok {V : Type} (buf pushed : List (Reading V)) (db : Db V)
    (hne : buf ≠ []) :
    flushClass false buf pushed db = (pushed, applyBatch db buf) := by
  rw [flushClass, if_neg (by simpa using hne), ingestBatch_ok db buf hne]

theorem flushClass_fail {V : Type} (buf pushed : List (Reading V)) (db : Db V)
    (hne : buf ≠ []) :
    flushClass true buf pushed db = (buf ++ pushed, db) := by
  rw [flushClass, if_neg (by simpa using hne), ingestBatch_fail db buf hne]

/-- Pushes that leave the buffer strictly below `FLUSH_SIZE` never trigger
a flush: they accumulate in order. -/
theorem pushRecord_below_threshold {V : Type} (flushSize : Nat) :
    ∀ (rs : List (Reading V)) (st : ClassState V),
      st.buffer.length + rs.length < flushSize →
      rs.foldl (pushRecord flushSize) st =
        ⟨st.buffer ++ rs, st.db, st.flushCount⟩ := by
  intro rs
  induction rs with
  | nil => intro st h; simp
  | cons r rs ih =>
      intro st h
      simp only [List.length_cons] at h
      rw [List.foldl_cons]
      have hlen : (st.buffer ++ [r]).length < flushSize := by
        simp only [List.length_append, List.length_singleton]
        omega
      have hstep : pushRecord flushSize st r = ⟨st.buffer ++ [r], st.db, st.flushCount⟩ := by
        rw [pushRecord]
        simp only [if_neg (not_le.mpr hlen)]
      rw [hstep]
      have := ih ⟨st.buffer ++ [r], st.db, st.flushCount⟩
        (by simp only [List.length_append, List.length_singleton]; omega)
      rw [this]
      simp

/-! ### Claim theorems -/

/-- Claim C9: `ingest_batch` applied to an empty record list returns
immediately without starting a transaction — the state is unchanged and no
error can arise whatever the transaction oracle says — and a flush of an
empty per-class buffer performs no database work and leaves the buffer
unchanged (holding exactly the records pushed meanwhile). -/
theorem emptyBatch_and_emptyFlush_are_noops {V : Type} (fail : Bool) (db : Db V)
    (pushed : List (Reading V)) :
    ingestBatch fail db ([] : List (Reading V)) = (db, none) ∧
    flushClass fail ([] : List (Reading V)) pushed db = (pushed, db) :=
  ⟨by simp [ingestBatch], flushClass_empty fail pushed db⟩

/-- Claim C2: for every non-empty batch, `ingest_batch` is atomic across
the two tables.  On commit, every record of the batch is visible in both
the historical table and the current table (whose row for the record's
device has `last_seen_at ≥` the record's `recorded_at`); on any failure
inside the transaction, the transaction is rolled back, both tables are
left unchanged, and the error is re-raised to the caller. -/
theorem ingestBatch_atomic {V : Type} (fail : Bool) (db : Db V)
    (records : List (Reading V)) (hne : records ≠ []) :
    (fail = false →
      ingestBatch fail db records = (applyBatch db records, none) ∧
      ∀ r ∈ records,
        r ∈ (applyBatch db records).history ∧
        ∃ row, (applyBatch db records).current r.deviceId = some row ∧
          r.recordedAt ≤ row.lastSeenAt) ∧
    (fail = true → ingestBatch fail db records = (db, some ())) := by
  constructor
  · rintro rfl
    exact ⟨ingestBatch_ok db records hne,
      fun r hr => applyBatch_visible db records r hr⟩
  · rintro rfl
    exact ingestBatch_fail db records hne

/-- Witness for C2 at a concrete input: a failing one-record batch rolls
back and re-raises. -/
theorem ingestBatch_atomic_witness :
    ingestBatch true (Db.empty : VehicleDb) [vr1] = (Db.empty, some ()) :=
  (ingestBatch_atomic true Db.empty [vr1] (List.cons_ne_nil _ _)).2 rfl

/-- Claim C4: when the repository call of a flush raises, the whole
detached batch is re-prepended to the front of the class buffer, ahead of
the records pushed during the flush; no buffered record is lost (each
batch record is again counted in the class `buffer_depth`, which is at
least one), the database is unchanged, and the re-queued records are
persisted by the next successful flush. -/
theorem failedFlush_requeues_batch {V : Type} (buf pushed : List (Reading V))
    (db : Db V) (hne : buf ≠ []) :
    flushClass true buf pushed db = (buf ++ pushed, db) ∧
    (∀ r ∈ buf, r ∈ (flushClass true buf pushed db).1) ∧
    buf.length ≤ bufferDepth (flushClass true buf pushed db).1 ∧
    1 ≤ bufferDepth (flushClass true buf pushed db).1 ∧
    (∀ r ∈ buf,
      r ∈ (flushClass false (flushClass true buf pushed db).1 [] db).2.history) := by
  have hfail := flushClass_fail buf pushed db hne
  have hne2 : buf ++ pushed ≠ [] := by
    simp [hne]
  refine ⟨hfail, ?_, ?_, ?_, ?_⟩
  · intro r hr
    rw [hfail]
    exact List.mem_append.mpr (Or.inl hr)
  · rw [hfail, bufferDepth, List.length_append]
    omega
  · rw [hfail, bufferDepth, List.length_append]
    have := List.length_pos.mpr hne
    omega
  · intro r hr
    rw [hfail]
    show r ∈ (flushClass false (buf ++ pushed) [] db).2.history
    rw [flushClass_ok (buf ++ pushed) [] db hne2]
    show r ∈ db.history ++ (buf ++ pushed)
    exact List.mem_append.mpr (Or.inr (List.mem_append.mpr (Or.inl hr)))

/-- Witness for C4 at a concrete input. -/
theorem failedFlush_requeues_batch_witness :
    flushClass true [vr1] [vr2] (Db.empty : VehicleDb) = ([vr1] ++ [vr2], Db.empty) ∧
    (∀ r ∈ [vr1], r ∈ (flushClass true [vr1] [vr2] (Db.empty : VehicleDb)).1) ∧
    [vr1].length ≤ bufferDepth (flushClass true [vr1] [vr2] (Db.empty : VehicleDb)).1 ∧
    1 ≤ bufferDepth (flushClass true [vr1] [vr2] (Db.empty : VehicleDb)).1 ∧
    (∀ r ∈ [vr1],
      r ∈ (flushClass false (flushClass true [vr1] [vr2] (Db.empty : VehicleDb)).1 []
        Db.empty).2.history) :=
  failedFlush_requeues_batch [vr1] [vr2] Db.empty (List.cons_ne_nil _ _)

/-- Claim C1: starting from the empty state, after any sequence of batches
is applied the current row of every device holds `last_seen_at` equal to
the maximum `recorded_at` among the persisted readings of that device and
value fields equal to those of a reading with that timestamp; moreover,
applying a reading whose `recorded_at` is strictly less than (or equal to)
the stored `last_seen_at` leaves the current table unchanged, because the
upsert updates only when the stored `last_seen_at` is strictly less than
the incoming `recorded_at`. -/
theorem currentRow_tracks_history_max {V : Type} :
    (∀ batches : List (List (Reading V)),
      HistoryConsistent (batches.foldl applyBatch Db.empty)) ∧
    (∀ (db : Db V) (r : Reading V) (row : CurrentRow V),
      db.current r.deviceId = some row → r.recordedAt ≤ row.lastSeenAt →
      ∀ d, (applyBatch db [r]).current d = db.current d) := by
  constructor
  · have hfold : ∀ (bs : List (List (Reading V))) (db : Db V),
        HistoryConsistent db → HistoryConsistent (bs.foldl applyBatch db) := by
      intro bs
      induction bs with
      | nil => intro db h; exact h
      | cons b bs ih =>
          intro db h
          exact ih _ (historyConsistent_applyBatch db b h)
    intro batches
    exact hfold batches Db.empty historyConsistent_empty
  · intro db r row hrow hle d
    show (([r] : List (Reading V)).foldl upsertOne db.current) d = db.current d
    rw [List.foldl_cons, List.foldl_nil]
    by_cases hd : d = r.deviceId
    · subst hd
      simp [upsertOne, hrow, not_lt.mpr hle]
    · exact upsertOne_ne _ _ _ hd

/-- Witness for C1 at a concrete input: two batches for `V001`, then an
out-of-order reading that leaves the current table unchanged. -/
theorem currentRow_tracks_history_max_witness :
    HistoryConsistent
      (([[vr1], [vr2]] : List (List VehicleReading)).foldl applyBatch Db.empty) ∧
    ∀ d, (applyBatch (applyBatch (Db.empty : VehicleDb) [vr2]) [vrOld]).current d =
      (applyBatch (Db.empty : VehicleDb) [vr2]).current d :=
  ⟨(currentRow_tracks_history_max (V := VehicleValues)).1 [[vr1], [vr2]],
    (currentRow_tracks_history_max (V := VehicleValues)).2
      (applyBatch Db.empty [vr2]) vrOld (rowOfReading vr2) (by decide) (by decide)⟩

/-- Claim C3 (amended): a batch that contains two or more records with
the same device identifier, where that device has no current row yet,
does NOT commit: the second record for the key conflicts with the row the
same command just inserted, PostgreSQL raises the cardinality violation
`ON CONFLICT DO UPDATE command cannot affect row a second time`, the
transaction is rolled back leaving both tables unchanged, and the error
is re-raised to the caller — no within-batch max-wins row survives. -/
theorem withinBatch_duplicates_abort {V : Type} (db : Db V)
    (records : List (Reading V)) (d : String)
    (hfresh : db.current d = none)
    (hdup : 2 ≤ (records.filter fun r => r.deviceId = d).length) :
    upsertCommand records db.current [] = none ∧
    ingestBatchPg db records = (db, some ()) := by
  have herr := upsertCommand_error_of_fresh_dup d records db.current []
    hfresh (by simp) hdup
  have hne : records ≠ [] := by
    intro h
    rw [h] at hdup
    simp at hdup
  refine ⟨herr, ?_⟩
  rw [ingestBatchPg, if_neg (by simpa using hne)]
  simp only [herr]

/-- Witness for the amended C3 at a concrete input: two records for
`V001`, newest first, against an empty database. -/
theorem withinBatch_duplicates_abort_witness :
    upsertCommand ([vr2, vr1] : List VehicleReading)
      (Db.empty : VehicleDb).current [] = none ∧
    ingestBatchPg (Db.empty : VehicleDb) [vr2, vr1] = (Db.empty, some ()) :=
  withinBatch_duplicates_abort Db.empty [vr2, vr1] "V001" rfl (by decide)

/-- Claim C3, counterexample to the claim as stated: the concrete batch
`[vr1, vr2]` contains two records for device `V001`, which has no current
row, yet `ingest_batch` does not succeed — the upsert command raises the
cardinality violation, the transaction rolls back (both tables unchanged)
and the error is re-raised — so no row "surviving for that device" with
the greatest in-batch `recorded_at` exists. -/
theorem withinBatch_duplicates_abort_cex :
    (Db.empty : VehicleDb).current "V001" = none ∧
    2 ≤ (([vr1, vr2] : List VehicleReading).filter
      fun r => r.deviceId = "V001").length ∧
    upsertCommand ([vr1, vr2] : List VehicleReading)
      (Db.empty : VehicleDb).current [] = none ∧
    ingestBatchPg (Db.empty : VehicleDb) [vr1, vr2] = (Db.empty, some ()) := by
  refine ⟨rfl, by decide, ?_, ?_⟩ <;> rfl

/-- Claim C5: pushing `FLUSH_SIZE + 1` records sequentially into an
initially empty class buffer (with successful repository calls) produces
exactly one size-triggered flush: the push that brings the buffer to
`FLUSH_SIZE` swaps the buffer for an empty one and hands exactly those
`FLUSH_SIZE` records to the repository in a single batch, and the final
record remains alone in the fresh buffer awaiting the next trigger. -/
theorem sizeTrigger_flushes_exactly_once {V : Type} (flushSize : Nat) (db : Db V)
    (rs : List (Reading V)) (h2 : 2 ≤ flushSize)
    (hlen : rs.length = flushSize + 1) :
    rs.foldl (pushRecord flushSize) ⟨[], db, 0⟩ =
      ⟨rs.drop flushSize, applyBatch db (rs.take flushSize), 1⟩ := by
  obtain ⟨front, a, b, rfl, hfrontlen⟩ :
      ∃ front a b, rs = front ++ [a, b] ∧ front.length = flushSize - 1 := by
    have hrestlen : (rs.drop (flushSize - 1)).length = 2 := by
      rw [List.length_drop]
      omega
    obtain ⟨a, b, hab⟩ := List.length_eq_two.mp hrestlen
    refine ⟨rs.take (flushSize - 1), a, b, ?_, ?_⟩
    · rw [← hab, List.take_append_drop]
    · rw [List.length_take]
      omega
  have hassoc : front ++ [a, b] = (front ++ [a]) ++ [b] := by
    simp
  have hlen2 : (front ++ [a]).length = flushSize := by
    simp only [List.length_append, List.length_singleton]
    omega
  have hfold1 : front.foldl (pushRecord flushSize) ⟨[], db, 0⟩ =
      ⟨front, db, 0⟩ := by
    have := pushRecord_below_threshold flushSize front ⟨[], db, 0⟩
      (by simp only [List.length_nil]; omega)
    simpa using this
  have hstep2 : pushRecord flushSize (⟨front, db, 0⟩ : ClassState V) a =
      ⟨[], applyBatch db (front ++ [a]), 1⟩ := by
    simp only [pushRecord]
    rw [if_pos (le_of_eq hlen2.symm)]
    rw [flushClass_ok (front ++ [a]) [] db (by simp)]
  have hstep3 : pushRecord flushSize
      (⟨[], applyBatch db (front ++ [a]), 1⟩ : ClassState V) b =
      ⟨[b], applyBatch db (front ++ [a]), 1⟩ := by
    simp only [pushRecord]
    rw [if_neg (by simp only [List.nil_append, List.length_singleton]; omega)]
    simp
  have htake : ((front ++ [a]) ++ [b]).take flushSize = front ++ [a] :=
    List.take_left' hlen2
  have hdrop : ((front ++ [a]) ++ [b]).drop flushSize = [b] :=
    List.drop_left' hlen2
  rw [hassoc, List.foldl_append, List.foldl_append, hfold1]
  simp only [List.foldl_cons, List.foldl_nil]
  rw [hstep2, hstep3, htake, hdrop]

/-- Witness for C5 at a concrete input: `FLUSH_SIZE = 2`, three pushes. -/
theorem sizeTrigger_flushes_exactly_once_witness :
    ([vr1, vr2, vrOld] : List VehicleReading).foldl (pushRecord 2)
        ⟨[], Db.empty, 0⟩ =
      ⟨[vr1, vr2, vrOld].drop 2, applyBatch Db.empty ([vr1, vr2, vrOld].take 2), 1⟩ :=
  sizeTrigger_flushes_exactly_once 2 Db.empty [vr1, vr2, vrOld] (by decide) rfl

/-! ### Validation (claim C6) -/

theorem if_singleton_eq_nil {α : Type} (c : Prop) [Decidable c] (x : α) :
    ((if c then [x] else []) = []) ↔ ¬c := by
  by_cases h : c <;> simp [h]

theorem if_nil_eq_nil {α : Type} (c : Prop) [Decidable c] (x : α) :
    ((if c then [] else [x]) = []) ↔ c := by
  by_cases h : c <;> simp [h]

/-- Claim C6 (amended): validation of a VEHICLE payload accepts it if and
only if the identifier is a non-empty string — with **no** upper bound on
its length, the DTO declares no `MaxLength` — `soc` is a number between 0
and 100 inclusive, `kwh_delivered_dc` is a number at least 0,
`battery_temp` is numeric, and the timestamp passes the ISO-8601 check;
any violation is surfaced synchronously as a 400 error carrying the
field-level messages and the record is not buffered, while on acceptance
the record is pushed onto the vehicle buffer. -/
theorem vehicleValidation_accepts_iff (isIsoDate : String → Bool)
    (p : RawVehiclePayload) (buffer : List VehiclePayload) :
    (vehicleValidationErrors isIsoDate p = [] ↔
      (∃ s, p.vehicleId = some s ∧ s ≠ "") ∧
      (∃ q, p.soc = some q ∧ 0 ≤ q ∧ q ≤ 100) ∧
      (∃ q, p.kwhDeliveredDc = some q ∧ 0 ≤ q) ∧
      (∃ q, p.batteryTemp = some q) ∧
      (∃ t, p.timestamp = some t ∧ isIsoDate t = true)) ∧
    (vehicleValidationErrors isIsoDate p ≠ [] →
      ingestVehicle isIsoDate p buffer =
        (Except.error (vehicleValidationErrors isIsoDate p), buffer)) ∧
    (vehicleValidationErrors isIsoDate p = [] →
      ∃ dto, ingestVehicle isIsoDate p buffer = (Except.ok (), buffer ++ [dto])) := by
  refine ⟨?_, ?_, ?_⟩
  · obtain ⟨vid, soc, kwh, bt, ts⟩ := p
    cases vid <;> cases soc <;> cases kwh <;> cases bt <;> cases ts <;>
      simp [vehicleValidationErrors, if_singleton_eq_nil, if_nil_eq_nil,
        not_lt, and_assoc]
  · intro h
    cases heq : vehicleValidationErrors isIsoDate p with
    | nil => exact absurd heq h
    | cons e es =>
        rw [ingestVehicle, heq]
  · intro h
    rw [ingestVehicle, h]
    exact ⟨_, rfl⟩

/-- Witness for C6 (amended) at a concrete input: a payload with a
negative `soc` is rejected with its field message and the buffer stays
empty. -/
theorem vehicleValidation_accepts_iff_witness :
    ingestVehicle isoReference
      (⟨some "V001", some (-1), some 3, some 25, some "2026-02-12T10:30:00Z"⟩ :
        RawVehiclePayload) [] =
      (Except.error (vehicleValidationErrors isoReference
        ⟨some "V001", some (-1), some 3, some 25, some "2026-02-12T10:30:00Z"⟩), []) :=
  (vehicleValidation_accepts_iff isoReference
    ⟨some "V001", some (-1), some 3, some 25, some "2026-02-12T10:30:00Z"⟩ []).2.1
    (by decide)

/-- Claim C6, counterexample to the claim as stated: the DTO enforces no
64-character limit on the identifier, so a payload whose `vehicleId` is 65
characters long passes validation and is buffered, contradicting
"validation accepts ... if and only if the identifier is a non-empty
string of at most 64 characters". -/
theorem vehicleValidation_no_length_cap :
    64 < (String.mk (List.replicate 65 'V')).length ∧
    vehicleValidationErrors isoReference longIdVehiclePayload = [] ∧
    (ingestVehicle isoReference longIdVehiclePayload []).1 = Except.ok () := by
  refine ⟨by decide, by decide, ?_⟩
  rfl

/-! ### Analytics (claims C7, C8, C10) -/

/-- Claim C7: for a linked vehicle the performance query returns a result
whose efficiency ratio equals 100 times the total DC delivered divided by
the total AC consumed over the 24h window, rounded to two fractional
digits, and equals 0 — with no arithmetic failure, the function is total —
whenever the total AC consumed is zero.  (The hypothesis that stored AC
energies are non-negative reflects the validation invariant
`kwh_consumed_ac ≥ 0`.) -/
theorem efficiencyRatio_spec (now : Int) (adb : AnalyticsDb)
    (vehicleId mId : String)
    (hlink : lookupLink adb.vehicleMeterLink vehicleId = some mId)
    (hnonneg : ∀ r ∈ adb.meterHistory, 0 ≤ r.values.kwhConsumedAc) :
    ∃ p, (getVehiclePerformance now adb vehicleId).1 = Except.ok p ∧
      0 ≤ p.totalAcConsumed ∧
      p.efficiencyRatio =
        (if p.totalAcConsumed = 0 then 0
         else pgRound2 (100 * p.totalDcDelivered / p.totalAcConsumed)) := by
  simp only [getVehiclePerformance, hlink]
  refine ⟨_, rfl, ?_, ?_⟩
  · apply List.sum_nonneg
    intro x hx
    obtain ⟨r, hr, rfl⟩ := List.mem_map.mp hx
    exact hnonneg r (List.mem_of_mem_filter hr)
  · set ac := ((adb.meterHistory.filter
      (fun r => r.deviceId == mId && decide (now - 86400 ≤ r.recordedAt))).map
        (fun r => r.values.kwhConsumedAc)).sum with hac
    set dc := ((adb.vehicleHistory.filter
      (fun r => r.deviceId == vehicleId && decide (now - 86400 ≤ r.recordedAt))).map
        (fun r => r.values.kwhDeliveredDc)).sum with hdc
    have hacnn : 0 ≤ ac := by
      apply List.sum_nonneg
      intro x hx
      obtain ⟨r, hr, rfl⟩ := List.mem_map.mp hx
      exact hnonneg r (List.mem_of_mem_filter hr)
    by_cases h0 : ac = 0
    · simp [h0]
    · have hpos : 0 < ac := lt_of_le_of_ne hacnn (Ne.symm h0)
      rw [if_pos hpos, if_neg h0]
      ring_nf

/-- Witness for C7 at a concrete input. -/
theorem efficiencyRatio_spec_witness :
    ∃ p, (getVehiclePerformance 2000 adbSample "V001").1 = Except.ok p ∧
      0 ≤ p.totalAcConsumed ∧
      p.efficiencyRatio =
        (if p.totalAcConsumed = 0 then 0
         else pgRound2 (100 * p.totalDcDelivered / p.totalAcConsumed)) :=
  efficiencyRatio_spec 2000 adbSample "V001" "M042" (by decide) (by decide)

/-- Claim C8: for a vehicle with no row in `vehicle_meter_link` the
performance query yields the not-found outcome and issues no aggregation
query against the history tables (the query counter stays 0). -/
theorem missingLink_notFound (now : Int) (adb : AnalyticsDb) (vehicleId : String)
    (h : lookupLink adb.vehicleMeterLink vehicleId = none) :
    getVehiclePerformance now adb vehicleId = (Except.error (), 0) := by
  simp [getVehiclePerformance, h]

/-- Witness for C8 at a concrete input: an unlinked vehicle. -/
theorem missingLink_notFound_witness :
    getVehiclePerformance 2000 adbSample "V999" = (Except.error (), 0) :=
  missingLink_notFound 2000 adbSample "V999" (by decide)

/-- Claim C10: for every `deviceType` value other than `VEHICLE` —
including strings that are no valid device type — the live-status lookup
queries the meter current table and returns its row or null; it never
rejects an unknown device type, while the history query throws a
validation error for a type that is neither `VEHICLE` nor `METER`. -/
theorem liveStatus_defaults_to_meter (adb : AnalyticsDb)
    (deviceType deviceId : String) (fromAt toAt : Int) (limit : Nat)
    (h : deviceType ≠ "VEHICLE") :
    getLiveStatus adb deviceType deviceId =
      (match adb.meterCurrent deviceId with
       | some row => LiveStatusResult.meterRow row
       | none => LiveStatusResult.null) ∧
    (deviceType ≠ "METER" →
      getDeviceHistory adb deviceType deviceId fromAt toAt limit =
        Except.error ()) := by
  constructor
  · rw [getLiveStatus, if_neg h]
  · intro hm
    rw [getDeviceHistory, if_neg h, if_neg hm]

/-- Witness for C10 at a concrete input: an invalid device type string. -/
theorem liveStatus_defaults_to_meter_witness :
    getLiveStatus adbSample "CHARGER" "M042" =
      (match adbSample.meterCurrent "M042" with
       | some row => LiveStatusResult.meterRow row
       | none => LiveStatusResult.null) ∧
    ("CHARGER" ≠ "METER" →
      getDeviceHistory adbSample "CHARGER" "M042" 0 2000 100 =
        Except.error ()) :=
  liveStatus_defaults_to_meter adbSample "CHARGER" "M042" 0 2000 100 (by decide)

end EnergyIngestion
